import Mathlib

/-!
Verification of the SmartNotes data pipeline: a shallow embedding of the
note-record model (src/types.ts), the analysis client
(src/services/geminiService.ts, processLectureMedia), the local note store
(addToHistory / deleteHistoryItem / clearAllHistory in the v1 app and
saveToHistory / the Reset All handler in the v2 app, src/App.tsx), and the
PDF export layout routine (src/utils/pdfGenerator.ts, generatePDF).

Modelling conventions:
- JavaScript values returned by JSON.parse are modelled by the inductive
  type JsonVal; JSON.parse itself is modelled by jsonParse, an executable
  recursive-descent parser over the characters of the payload (integers
  only for numbers, the common escapes for strings; a payload outside this
  fragment counts as unparseable).
- localStorage is modelled as the optional value stored under the app's
  single storage key; JSON.stringify of the history array is modelled at
  the JsonVal level by encodeHistory, and reading it back by decodeHistory.
- External effects (crypto.randomUUID, Date.now, the Gemini backend call,
  jsPDF text measurement via splitTextToSize) are inputs of the model:
  the uuid and clock are parameters, the backend outcome is a
  BackendOutcome value, and splitTextToSize is a line-splitting function
  parameter (all call sites in the source use the same width 170, so the
  width argument is dropped).
-/

/-- A grounding (web citation) source, src/types.ts GroundingSource. -/
structure GroundingSource where
  title : String
  uri : String
deriving DecidableEq

/-- A multiple-choice quiz item, schema v2 (quiz entries requested by the
analysis client's response schema: question, options, answer). -/
structure QuizItem where
  question : String
  options : List String
  answer : String
deriving DecidableEq

/-- A flashcard, schema v2 (front, back). -/
structure Flashcard where
  front : String
  back : String
deriving DecidableEq

/-- The canonical note record, src/types.ts SmartNotes, with the optional
schema-v2 fields (sources, quiz, flashcards) as Option values: none models
an absent field, some [] a present-but-empty one. -/
structure SmartNotes where
  id : String
  timestamp : Nat
  title : String
  summary : String
  keyConcepts : List String
  actionItems : List String
  transcription : String
  sources : Option (List GroundingSource)
  quiz : Option (List QuizItem)
  flashcards : Option (List Flashcard)
deriving DecidableEq

/-- The presentation state machine's states, src/types.ts AppStatus. -/
inductive AppStatus where
  | IDLE
  | RECORDING
  | UPLOADING
  | PROCESSING
  | COMPLETED
  | ERROR
deriving DecidableEq

/-- A JavaScript JSON value, the result type of JSON.parse. -/
inductive JsonVal where
  | null
  | bool (b : Bool)
  | num (n : Int)
  | str (s : String)
  | arr (elems : List JsonVal)
  | obj (fields : List (String × JsonVal))

/-- Drop leading JSON whitespace. -/
def skipWs : List Char → List Char
  | [] => []
  | c :: cs => if c = ' ' || c = '\n' || c = '\t' || c = '\r' then skipWs cs else c :: cs

/-- Parse the body of a JSON string literal after its opening quote,
supporting the common escapes; acc holds the decoded characters reversed. -/
def parseStrAux (acc : List Char) : List Char → Option (String × List Char)
  | [] => none
  | '"' :: cs => some (⟨acc.reverse⟩, cs)
  | '\\' :: '"' :: cs => parseStrAux ('"' :: acc) cs
  | '\\' :: '\\' :: cs => parseStrAux ('\\' :: acc) cs
  | '\\' :: 'n' :: cs => parseStrAux ('\n' :: acc) cs
  | '\\' :: 't' :: cs => parseStrAux ('\t' :: acc) cs
  | '\\' :: '/' :: cs => parseStrAux ('/' :: acc) cs
  | '\\' :: _ => none
  | c :: cs => parseStrAux (c :: acc) cs

/-- Parse a run of decimal digits, returning the accumulated value and the
remaining input. -/
def parseDigits (acc : Nat) : List Char → Nat × List Char
  | [] => (acc, [])
  | c :: cs => if c.isDigit then parseDigits (acc * 10 + (c.toNat - 48)) cs else (acc, c :: cs)

mutual

/-- Parse one JSON value; the fuel argument bounds the recursion depth and
is always supplied larger than the input length. -/
def parseValue : Nat → List Char → Option (JsonVal × List Char)
  | 0, _ => none
  | fuel + 1, input =>
    match skipWs input with
    | 'n' :: 'u' :: 'l' :: 'l' :: rest => some (.null, rest)
    | 't' :: 'r' :: 'u' :: 'e' :: rest => some (.bool true, rest)
    | 'f' :: 'a' :: 'l' :: 's' :: 'e' :: rest => some (.bool false, rest)
    | '"' :: rest => (parseStrAux [] rest).map (fun p => (.str p.1, p.2))
    | '[' :: rest =>
      match skipWs rest with
      | ']' :: r2 => some (.arr [], r2)
      | r2 => parseElems fuel r2 []
    | '\x7b' :: rest =>
      match skipWs rest with
      | '\x7d' :: r2 => some (.obj [], r2)
      | r2 => parseFields fuel r2 []
    | '-' :: c :: rest =>
      if c.isDigit then
        let p := parseDigits (c.toNat - 48) rest
        some (.num (-(p.1 : Int)), p.2)
      else none
    | c :: rest =>
      if c.isDigit then
        let p := parseDigits (c.toNat - 48) rest
        some (.num (p.1 : Int), p.2)
      else none
    | [] => none

/-- Parse the remaining elements of a non-empty JSON array. -/
def parseElems : Nat → List Char → List JsonVal → Option (JsonVal × List Char)
  | 0, _, _ => none
  | fuel + 1, input, acc => do
    let (v, rest) ← parseValue fuel input
    match skipWs rest with
    | ',' :: r2 => parseElems fuel r2 (v :: acc)
    | ']' :: r2 => some (.arr (v :: acc).reverse, r2)
    | _ => none

/-- Parse the remaining members of a non-empty JSON object. -/
def parseFields : Nat → List Char → List (String × JsonVal) → Option (JsonVal × List Char)
  | 0, _, _ => none
  | fuel + 1, input, acc =>
    match skipWs input with
    | '"' :: rest => do
      let (k, r1) ← parseStrAux [] rest
      match skipWs r1 with
      | ':' :: r2 => do
        let (v, r3) ← parseValue fuel r2
        match skipWs r3 with
        | ',' :: r4 => parseFields fuel r4 ((k, v) :: acc)
        | '\x7d' :: r4 => some (.obj ((k, v) :: acc).reverse, r4)
        | _ => none
      | _ => none
    | _ => none

end

/-- Model of JSON.parse: none models the SyntaxError throw on an
unparseable payload. -/
def jsonParse (s : String) : Option JsonVal :=
  match parseValue (s.length + 1) s.data with
  | some (j, rest) => if skipWs rest = [] then some j else none
  | none => none

/-- Field access on a parsed JSON object's member list. -/
def lookupField : List (String × JsonVal) → String → Option JsonVal
  | [], _ => none
  | (k, v) :: rest, key => if k = key then some v else lookupField rest key

/-- Property access on a JSON value: some v when it is an object with the
key, none (JavaScript undefined) otherwise. -/
def JsonVal.lookup : JsonVal → String → Option JsonVal
  | .obj fields, key => lookupField fields key
  | _, _ => none

/-- Traverse a list with a fallible decoder, failing if any element fails. -/
def optMapM (f : α → Option β) : List α → Option (List β)
  | [] => some []
  | x :: xs => do
    let y ← f x
    let ys ← optMapM f xs
    some (y :: ys)

/-- Read a JSON value as a string. -/
def decodeString : JsonVal → Option String
  | .str s => some s
  | _ => none

/-- Read a JSON value as a natural number (a non-negative integer). -/
def decodeNat : JsonVal → Option Nat
  | .num n => n.toNat'
  | _ => none

/-- Read a JSON value as an array of strings. -/
def decodeStrList : JsonVal → Option (List String)
  | .arr xs => optMapM decodeString xs
  | _ => none

/-- Read a JSON value as a GroundingSource object. -/
def decodeSource (j : JsonVal) : Option GroundingSource := do
  let title ← (j.lookup "title").bind decodeString
  let uri ← (j.lookup "uri").bind decodeString
  some ⟨title, uri⟩

/-- Read a JSON value as an array of GroundingSource objects. -/
def decodeSourceList : JsonVal → Option (List GroundingSource)
  | .arr xs => optMapM decodeSource xs
  | _ => none

/-- Read a JSON value as a QuizItem object. -/
def decodeQuizItem (j : JsonVal) : Option QuizItem := do
  let q ← (j.lookup "question").bind decodeString
  let o ← (j.lookup "options").bind decodeStrList
  let a ← (j.lookup "answer").bind decodeString
  some ⟨q, o, a⟩

/-- Read a JSON value as an array of QuizItem objects. -/
def decodeQuizList : JsonVal → Option (List QuizItem)
  | .arr xs => optMapM decodeQuizItem xs
  | _ => none

/-- Read a JSON value as a Flashcard object. -/
def decodeFlashcard (j : JsonVal) : Option Flashcard := do
  let f ← (j.lookup "front").bind decodeString
  let b ← (j.lookup "back").bind decodeString
  some ⟨f, b⟩

/-- Read a JSON value as an array of Flashcard objects. -/
def decodeFlashcardList : JsonVal → Option (List Flashcard)
  | .arr xs => optMapM decodeFlashcard xs
  | _ => none

/-- Serialize a GroundingSource (JSON.stringify at the JsonVal level). -/
def encodeSource (s : GroundingSource) : JsonVal :=
  .obj [("title", .str s.title), ("uri", .str s.uri)]

/-- Serialize a QuizItem. -/
def encodeQuizItem (q : QuizItem) : JsonVal :=
  .obj [("question", .str q.question), ("options", .arr (q.options.map .str)),
        ("answer", .str q.answer)]

/-- Serialize a Flashcard. -/
def encodeFlashcard (f : Flashcard) : JsonVal :=
  .obj [("front", .str f.front), ("back", .str f.back)]

/-- Serialize a SmartNotes record; optional fields are omitted (not written
as null) when absent, as JSON.stringify does for undefined properties. -/
def encodeNote (r : SmartNotes) : JsonVal :=
  .obj ([("id", .str r.id), ("timestamp", .num r.timestamp), ("title", .str r.title),
         ("summary", .str r.summary), ("keyConcepts", .arr (r.keyConcepts.map .str)),
         ("actionItems", .arr (r.actionItems.map .str)),
         ("transcription", .str r.transcription)]
    ++ (match r.sources with
        | none => []
        | some ss => [("sources", .arr (ss.map encodeSource))])
    ++ (match r.quiz with
        | none => []
        | some qs => [("quiz", .arr (qs.map encodeQuizItem))])
    ++ (match r.flashcards with
        | none => []
        | some fs => [("flashcards", .arr (fs.map encodeFlashcard))]))

/-- Read a JSON value back as a SmartNotes record (field-by-field lookup;
absent optional fields decode to none). -/
def decodeNote (j : JsonVal) : Option SmartNotes := do
  let id ← (j.lookup "id").bind decodeString
  let timestamp ← (j.lookup "timestamp").bind decodeNat
  let title ← (j.lookup "title").bind decodeString
  let summary ← (j.lookup "summary").bind decodeString
  let keyConcepts ← (j.lookup "keyConcepts").bind decodeStrList
  let actionItems ← (j.lookup "actionItems").bind decodeStrList
  let transcription ← (j.lookup "transcription").bind decodeString
  let sources ← match j.lookup "sources" with
    | none => some none
    | some sj => (decodeSourceList sj).map some
  let quiz ← match j.lookup "quiz" with
    | none => some none
    | some qj => (decodeQuizList qj).map some
  let flashcards ← match j.lookup "flashcards" with
    | none => some none
    | some fj => (decodeFlashcardList fj).map some
  some ⟨id, timestamp, title, summary, keyConcepts, actionItems, transcription,
        sources, quiz, flashcards⟩

/-- The web part of a grounding chunk returned by the backend
(chunk.web.title may be absent, chunk.web.uri is present). -/
structure WebInfo where
  title : Option String
  uri : String
deriving DecidableEq

/-- A grounding chunk of response.candidates[0].groundingMetadata:
chunk.web is absent for non-web chunks. -/
structure GroundingChunk where
  web : Option WebInfo
deriving DecidableEq

/-- The backend response as processLectureMedia reads it: response.text
(none models an undefined body) and the grounding chunks ([] models absent
candidates or grounding metadata, matching the or-else-[] in the source). -/
structure GenResponse where
  text : Option String
  groundingChunks : List GroundingChunk

/-- Outcome of the awaited ai.models.generateContent call: success with a
response, or failure (rejection / network error / timeout) with a message. -/
inductive BackendOutcome where
  | success (resp : GenResponse)
  | failure (msg : String)

/-- The value processLectureMedia returns on success: the spread of the
parsed JSON body together with the client-synthesized id
(crypto.randomUUID), timestamp (Date.now) and mapped sources, which
override any same-named parsed fields because they are spread last. -/
structure AnalyzedNotes where
  parsed : JsonVal
  id : String
  timestamp : Nat
  sources : List GroundingSource

/-- Model of response.text with the or-else default: an undefined or empty
body is replaced by the empty-object text, src/services/geminiService.ts
line 94. -/
def resultText : Option String → String
  | some s => if s.isEmpty then "\x7b\x7d" else s
  | none => "\x7b\x7d"

/-- Mapping of grounding chunks to sources, src/services/geminiService.ts
lines 97-103: keep chunks with a web part, default the title to the
generic label when absent. -/
def mapSources (chunks : List GroundingChunk) : List GroundingSource :=
  chunks.filterMap fun c => c.web.map fun w => ⟨w.title.getD "External Resource", w.uri⟩

/-- The single human-readable message of the catch-all error thrown by
processLectureMedia, src/services/geminiService.ts line 113. -/
def analysisFailureMessage : String :=
  "Failed to generate smart notes. Ensure file content is readable."

/-- Model of processLectureMedia, src/services/geminiService.ts lines
32-114: the backend call's outcome, the fresh uuid and the current time
are inputs; a rejected call or an unparseable body lands in the catch
block and fails with the fixed message; a parsed body is returned spread
with the synthesized fields, with no validation of its contents. -/
def processLectureMedia (outcome : BackendOutcome) (uuid : String) (now : Nat) :
    Except String AnalyzedNotes :=
  match outcome with
  | .failure _ => .error analysisFailureMessage
  | .success resp =>
    match jsonParse (resultText resp.text) with
    | none => .error analysisFailureMessage
    | some parsed => .ok ⟨parsed, uuid, now, mapSources resp.groundingChunks⟩

/-- The quiz of a returned record, read off its parsed body. -/
def notesQuiz (r : AnalyzedNotes) : Option (List QuizItem) :=
  (r.parsed.lookup "quiz").bind decodeQuizList

/-- The quiz carried by the backend body of a response, read the same way. -/
def bodyQuizOf (resp : GenResponse) : Option (List QuizItem) :=
  (jsonParse (resultText resp.text)).bind fun j => (j.lookup "quiz").bind decodeQuizList

/-- A note store: the in-memory history array plus the value persisted
under the app's storage key (none models an absent key). -/
structure StoreState where
  history : List SmartNotes
  storage : Option JsonVal

/-- JSON.stringify of the history array, at the JsonVal level. -/
def encodeHistory (h : List SmartNotes) : JsonVal := .arr (h.map encodeNote)

/-- Deserialize a persisted history value. -/
def decodeHistory : JsonVal → Option (List SmartNotes)
  | .arr xs => optMapM decodeNote xs
  | _ => none

/-- The v1 insert, addToHistory in src/types.ts lines 105-109: prepend,
keep the first 50, persist the updated array before returning. -/
def addToHistory (st : StoreState) (note : SmartNotes) : StoreState :=
  let newHistory := (note :: st.history).take 50
  ⟨newHistory, some (encodeHistory newHistory)⟩

/-- The v1 remove, deleteHistoryItem in src/types.ts lines 111-115: filter
the id out, persist the filtered array. -/
def deleteHistoryItem (st : StoreState) (i : String) : StoreState :=
  let newHistory := st.history.filter fun item => item.id != i
  ⟨newHistory, some (encodeHistory newHistory)⟩

/-- The v1 clear, clearAllHistory in src/types.ts lines 117-122: behind a
confirm() prompt; when confirmed it empties the in-memory array and
removes the persisted key, otherwise it does nothing. -/
def clearAllHistory (st : StoreState) (confirmed : Bool) : StoreState :=
  if confirmed then ⟨[], none⟩ else st

/-- The v2 insert, saveToHistory in src/App.tsx lines 152-156: prepend,
keep the first 30, persist. -/
def saveToHistory (st : StoreState) (note : SmartNotes) : StoreState :=
  let updated := (note :: st.history).take 30
  ⟨updated, some (encodeHistory updated)⟩

/-- The v2 clear, the Reset All handler in src/App.tsx line 260: remove
the persisted key and empty the in-memory array, unconditionally. -/
def resetAllHistory (_ : StoreState) : StoreState := ⟨[], none⟩

/-- Insert a sequence of records into an initially empty v1 store. -/
def insertAllV1 (rs : List SmartNotes) : StoreState := rs.foldl addToHistory ⟨[], none⟩

/-- Insert a sequence of records into an initially empty v2 store. -/
def insertAllV2 (rs : List SmartNotes) : StoreState := rs.foldl saveToHistory ⟨[], none⟩

/-- Memory/persistence agreement: the persisted value deserializes to
exactly the in-memory sequence; an absent key corresponds to the empty
sequence (what the startup load produces for it). -/
def persistedConsistent (st : StoreState) : Prop :=
  match st.storage with
  | some j => decodeHistory j = some st.history
  | none => st.history = []

/-- The v1 startup load, src/types.ts lines 93-102: the history state is
initialized empty; a stored payload (getItem truthiness skips an absent or
empty value) is parsed inside try/catch, and a parse failure is logged and
swallowed, leaving the state empty. Returns the resulting history value at
the JavaScript level. -/
def loadHistoryV1 : Option String → JsonVal
  | none => .arr []
  | some s =>
    if s.isEmpty then .arr []
    else
      match jsonParse s with
      | some j => j
      | none => .arr []

/-- The v2 startup load, src/App.tsx lines 147-150: identical except that
JSON.parse runs with no try/catch, so a parse failure propagates as an
uncaught exception, modelled as the error case. -/
def loadHistoryV2 : Option String → Except String JsonVal
  | none => .ok (.arr [])
  | some s =>
    if s.isEmpty then .ok (.arr [])
    else
      match jsonParse s with
      | some j => .ok j
      | none => .error "SyntaxError: unexpected end of JSON input"

/-- What the v2 processFile continuation produces, src/App.tsx lines
158-180. -/
structure ProcessOutcome where
  history : List AnalyzedNotes
  status : AppStatus
  errorMessage : Option String
  notes : Option AnalyzedNotes

/-- Model of the v2 processFile continuation after the analysis call
settles: on success the result is displayed, saved to history (prepend,
cap 30) and the status becomes COMPLETED; on failure the history is left
alone, the message is shown and the status becomes ERROR. -/
def processFileModel (history : List AnalyzedNotes) (res : Except String AnalyzedNotes) :
    ProcessOutcome :=
  match res with
  | .ok r => ⟨(r :: history).take 30, .COMPLETED, none, some r⟩
  | .error e => ⟨history, .ERROR, some e, none⟩

/-- One piece of text placed by the PDF generator: its page (1-based), its
vertical position in the page's millimeter coordinates, and its content. -/
structure PdfItem where
  page : Nat
  y : Nat
  text : String
deriving DecidableEq

/-- The jsPDF document state as generatePDF drives it: current page,
cursorY, and everything placed so far in drawing order. -/
structure PdfState where
  page : Nat
  y : Nat
  items : List PdfItem
deriving DecidableEq

/-- A fresh jsPDF document: one page, cursorY initialized to 20. -/
def pdfInit : PdfState := ⟨1, 20, []⟩

/-- doc.text with a single string: places it at the current cursor. -/
def drawText (st : PdfState) (s : String) : PdfState :=
  { st with items := st.items ++ [⟨st.page, st.y, s⟩] }

/-- doc.text with an array of lines: line i goes at cursorY plus i line
heights, the same per-line height the source uses to advance cursorY. -/
def drawLines (st : PdfState) (lines : List String) (lineHeight : Nat) : PdfState :=
  { st with items := st.items ++ lines.enum.map fun p => ⟨st.page, st.y + lineHeight * p.1, p.2⟩ }

/-- cursorY += dy. -/
def advance (st : PdfState) (dy : Nat) : PdfState := { st with y := st.y + dy }

/-- The page-break threshold used by checkPage, src/utils/pdfGenerator.ts
line 11 (the physical A4 page is 297mm tall). -/
def pageLimit : Nat := 280

/-- checkPage, src/utils/pdfGenerator.ts lines 10-17: start a new page
with cursorY 20 when the needed height does not fit above the limit. -/
def checkPage (st : PdfState) (heightNeeded : Nat) : PdfState :=
  if pageLimit < st.y + heightNeeded then { st with page := st.page + 1, y := 20 } else st

/-- doc.addPage followed by cursorY = 20, src/utils/pdfGenerator.ts lines
81-82. -/
def addPageOp (st : PdfState) : PdfState := { st with page := st.page + 1, y := 20 }

/-- The title actually printed: notes.title with the or-else fallback,
src/utils/pdfGenerator.ts line 22. -/
def titleText (notes : SmartNotes) : String :=
  if notes.title.isEmpty then "Lecture Notes" else notes.title

/-- The metadata line (toLocaleString of the timestamp is abstracted to
its decimal rendering), src/utils/pdfGenerator.ts line 28. -/
def metaText (notes : SmartNotes) : String := "Generated on: " ++ toString notes.timestamp

/-- Title and metadata, src/utils/pdfGenerator.ts lines 19-29: both placed
with no page check, cursorY advanced by 15 after each. -/
def headerSection (notes : SmartNotes) : PdfState :=
  let st := drawText pdfInit (titleText notes)
  let st := advance st 15
  let st := drawText st (metaText notes)
  advance st 15

/-- Summary, src/utils/pdfGenerator.ts lines 31-40: heading, then the
split summary lines placed in one block with NO page check, then
cursorY += lines*6 + 10. -/
def summarySection (notes : SmartNotes) (split : String → List String) (st : PdfState) :
    PdfState :=
  let st := drawText st "Executive Summary"
  let st := advance st 7
  let summaryLines := split notes.summary
  let st := drawLines st summaryLines 6
  advance st (summaryLines.length * 6 + 10)

/-- One key concept, src/utils/pdfGenerator.ts lines 51-56: split the
bulleted text, checkPage for its height, place it, advance. -/
def conceptStep (split : String → List String) (st : PdfState) (concept : String) : PdfState :=
  let lines := split ("• " ++ concept)
  let st := checkPage st (lines.length * 6)
  let st := drawLines st lines 6
  advance st (lines.length * 6)

/-- Key Concepts, src/utils/pdfGenerator.ts lines 42-58: skipped when the
list is empty; otherwise checkPage 20, heading, each concept in turn,
trailing gap. -/
def conceptsSection (notes : SmartNotes) (split : String → List String) (st : PdfState) :
    PdfState :=
  if 0 < notes.keyConcepts.length then
    let st := checkPage st 20
    let st := drawText st "Key Concepts"
    let st := advance st 7
    let st := notes.keyConcepts.foldl (conceptStep split) st
    advance st 10
  else st

/-- One grounding source line, src/utils/pdfGenerator.ts lines 69-74. -/
def sourceStep (split : String → List String) (st : PdfState) (source : GroundingSource) :
    PdfState :=
  let lines := split (source.title ++ ": " ++ source.uri)
  let st := checkPage st (lines.length * 6)
  let st := drawLines st lines 6
  advance st (lines.length * 6)

/-- Supplemental Resources, src/utils/pdfGenerator.ts lines 60-78: only
when sources is present and non-empty. -/
def sourcesSection (notes : SmartNotes) (split : String → List String) (st : PdfState) :
    PdfState :=
  match notes.sources with
  | some sourceList =>
    if 0 < sourceList.length then
      let st := checkPage st 20
      let st := drawText st "Supplemental Resources"
      let st := advance st 7
      let st := sourceList.foldl (sourceStep split) st
      advance st 10
    else st
  | none => st

/-- Everything generatePDF places before the transcription, in source
order: title, metadata, summary, key concepts, sources. -/
def preTranscription (notes : SmartNotes) (split : String → List String) : PdfState :=
  sourcesSection notes split (conceptsSection notes split (summarySection notes split (headerSection notes)))

/-- One transcription line, src/utils/pdfGenerator.ts lines 90-94:
checkPage 5, place the line, cursorY += 5. -/
def transLineStep (st : PdfState) (line : String) : PdfState :=
  let st := checkPage st 5
  let st := drawText st line
  advance st 5

/-- The transcription section, src/utils/pdfGenerator.ts lines 80-94: an
unconditional addPage, the heading, cursorY += 10, then every split line
through transLineStep. -/
def transcriptionSection (notes : SmartNotes) (split : String → List String) (st : PdfState) :
    PdfState :=
  let st := addPageOp st
  let st := drawText st "Transcription"
  let st := advance st 10
  (split notes.transcription).foldl transLineStep st

/-- Model of generatePDF, src/utils/pdfGenerator.ts lines 5-97, with the
library's splitTextToSize supplied as the line-splitting parameter. -/
def generatePDF (notes : SmartNotes) (split : String → List String) : PdfState :=
  transcriptionSection notes split (preTranscription notes split)

/-- Every item of a state sits on an already-existing page. -/
def itemsBounded (st : PdfState) : Prop := ∀ it ∈ st.items, it.page ≤ st.page

/-- Relation between a PDF state and a later one in the same run: the page
number never decreases, page-boundedness of items is preserved, and items
are only appended. -/
def stepOk (st st' : PdfState) : Prop :=
  st.page ≤ st'.page ∧ (itemsBounded st → itemsBounded st') ∧ ∃ ex, st'.items = st.items ++ ex

/-- A concrete record used by witnesses: a minimal well-formed note. -/
def wNote : SmartNotes := ⟨"a", 1, "t", "s", [], [], "tr", none, none, none⟩

/-- A backend body whose quiz item's answer is not among its options. -/
def badQuizBody : String :=
  "\x7b\"title\":\"T\",\"quiz\":[\x7b\"question\":\"Q1\",\"options\":[\"A\",\"B\"],\"answer\":\"C\"\x7d]\x7d"

/-- The parse of badQuizBody. -/
def badQuizJson : JsonVal :=
  .obj [("title", .str "T"),
        ("quiz", .arr [.obj [("question", .str "Q1"),
                             ("options", .arr [.str "A", .str "B"]),
                             ("answer", .str "C")]])]

/-- A backend body whose quiz item's answer is among its options. -/
def goodQuizBody : String :=
  "\x7b\"quiz\":[\x7b\"question\":\"Q\",\"options\":[\"A\",\"B\"],\"answer\":\"A\"\x7d]\x7d"

/-- The parse of goodQuizBody. -/
def goodQuizJson : JsonVal :=
  .obj [("quiz", .arr [.obj [("question", .str "Q"),
                             ("options", .arr [.str "A", .str "B"]),
                             ("answer", .str "A")]])]

/-- A record whose summary splits into 60 rendered lines under exSplit. -/
def exNote : SmartNotes := ⟨"id1", 0, "T", "S", [], [], "TR", none, none, none⟩

/-- A splitTextToSize behavior rendering every text as 60 lines. -/
def exSplit : String → List String := fun _ => List.replicate 60 "x"

/-! Roundtrip lemmas: a serialized history deserializes to itself. -/

/-- Decoding an encoded string list recovers it. -/
theorem optMapM_decodeString_map (l : List String) :
    optMapM decodeString (l.map .str) = some l := by
  induction l with
  | nil => rfl
  | cons x xs ih => simp [optMapM, decodeString, ih]

/-- Decoding an encoded string array recovers it. -/
theorem decodeStrList_enc (l : List String) :
    decodeStrList (.arr (l.map .str)) = some l := by
  simp [decodeStrList, optMapM_decodeString_map]

/-- Decoding an encoded source recovers it. -/
theorem decodeSource_enc (s : GroundingSource) :
    decodeSource (encodeSource s) = some s := rfl

/-- Decoding an encoded source list recovers it. -/
theorem decodeSourceList_enc (l : List GroundingSource) :
    decodeSourceList (.arr (l.map encodeSource)) = some l := by
  induction l with
  | nil => rfl
  | cons x xs ih =>
    simp only [decodeSourceList, List.map_cons, optMapM, decodeSource_enc] at *
    simp [ih]

/-- Decoding an encoded quiz item recovers it. -/
theorem decodeQuizItem_enc (q : QuizItem) :
    decodeQuizItem (encodeQuizItem q) = some q := by
  obtain ⟨qq, oo, aa⟩ := q
  simp [decodeQuizItem, encodeQuizItem, JsonVal.lookup, lookupField, decodeString,
    decodeStrList_enc]

/-- Decoding an encoded quiz recovers it. -/
theorem decodeQuizList_enc (l : List QuizItem) :
    decodeQuizList (.arr (l.map encodeQuizItem)) = some l := by
  induction l with
  | nil => rfl
  | cons x xs ih =>
    simp only [decodeQuizList, List.map_cons, optMapM, decodeQuizItem_enc] at *
    simp [ih]

/-- Decoding an encoded flashcard list recovers it. -/
theorem decodeFlashcardList_enc (l : List Flashcard) :
    decodeFlashcardList (.arr (l.map encodeFlashcard)) = some l := by
  induction l with
  | nil => rfl
  | cons x xs ih =>
    simp only [decodeFlashcardList, List.map_cons, optMapM] at *
    simp [ih, decodeFlashcard, encodeFlashcard, JsonVal.lookup, lookupField, decodeString]

/-- A natural number cast to Int converts back. -/
theorem toNatApos_natCast (n : Nat) : ((n : Int)).toNat' = some n := rfl

/-- Decoding an encoded record recovers it. -/
theorem decodeNote_enc (r : SmartNotes) : decodeNote (encodeNote r) = some r := by
  obtain ⟨id, ts, ti, su, kc, ai, tr, src, quiz, fc⟩ := r
  cases src <;> cases quiz <;> cases fc <;>
    simp [decodeNote, encodeNote, JsonVal.lookup, lookupField, decodeString, decodeNat,
      decodeStrList_enc, decodeSourceList_enc, decodeQuizList_enc, decodeFlashcardList_enc,
      toNatApos_natCast]

/-- Decoding an encoded history recovers it. -/
theorem decodeHistory_enc (h : List SmartNotes) :
    decodeHistory (encodeHistory h) = some h := by
  induction h with
  | nil => rfl
  | cons x xs ih =>
    simp only [decodeHistory, encodeHistory, List.map_cons, optMapM, decodeNote_enc] at *
    simp [ih]

/-! Store lemmas. -/

/-- Truncating the right summand of an append before taking changes
nothing. -/
theorem take_append_take (A B : List α) (c : Nat) :
    (A ++ B.take c).take c = (A ++ B).take c := by
  simp [List.take_append_eq_append_take, List.take_take,
    Nat.min_eq_left (Nat.sub_le c A.length)]

/-- Folding prepend-then-take-c over a short-enough accumulator computes
the capped reversed sequence. -/
theorem foldl_take_aux (c : Nat) (rs : List SmartNotes) :
    ∀ acc : List SmartNotes, acc.length ≤ c →
      rs.foldl (fun l r => (r :: l).take c) acc = (rs.reverse ++ acc).take c := by
  induction rs with
  | nil =>
    intro acc hacc
    simp [List.take_of_length_le hacc]
  | cons r rs ih =>
    intro acc hacc
    rw [List.foldl_cons, ih ((r :: acc).take c) (by simp [List.length_take])]
    rw [take_append_take]
    simp [List.append_assoc]

/-- The history component of the v1 insert fold. -/
theorem history_foldl_addToHistory (rs : List SmartNotes) :
    ∀ st : StoreState,
      (rs.foldl addToHistory st).history = rs.foldl (fun l r => (r :: l).take 50) st.history := by
  induction rs with
  | nil => intro st; rfl
  | cons r rs ih => intro st; rw [List.foldl_cons, List.foldl_cons, ih]; rfl

/-- The history component of the v2 insert fold. -/
theorem history_foldl_saveToHistory (rs : List SmartNotes) :
    ∀ st : StoreState,
      (rs.foldl saveToHistory st).history = rs.foldl (fun l r => (r :: l).take 30) st.history := by
  induction rs with
  | nil => intro st; rfl
  | cons r rs ih => intro st; rw [List.foldl_cons, List.foldl_cons, ih]; rfl

/-- Claim C3: for every sequence of records and every record, insert
prepends the new record and truncates to the capacity (50 for the v1
store, 30 for the v2 store): inserting N > cap records into an empty
store leaves exactly the cap most-recent records in newest-first order,
the new record first and the oldest evicted. -/
theorem C3_insert_capacity :
    (∀ rs : List SmartNotes, 50 < rs.length →
      (insertAllV1 rs).history = rs.reverse.take 50 ∧ (insertAllV1 rs).history.length = 50)
    ∧ (∀ rs : List SmartNotes, 30 < rs.length →
      (insertAllV2 rs).history = rs.reverse.take 30 ∧ (insertAllV2 rs).history.length = 30) := by
  constructor
  · intro rs h
    have heq : (insertAllV1 rs).history = rs.reverse.take 50 := by
      rw [insertAllV1, history_foldl_addToHistory, foldl_take_aux 50 rs [] (by simp)]
      simp
    refine ⟨heq, ?_⟩
    rw [heq]
    simp [List.length_take]
    omega
  · intro rs h
    have heq : (insertAllV2 rs).history = rs.reverse.take 30 := by
      rw [insertAllV2, history_foldl_saveToHistory, foldl_take_aux 30 rs [] (by simp)]
      simp
    refine ⟨heq, ?_⟩
    rw [heq]
    simp [List.length_take]
    omega

/-- Witness for C3 at a concrete 51-record (and 31-record) insertion. -/
theorem C3_witness :
    50 < (List.replicate 51 wNote).length
    ∧ (insertAllV1 (List.replicate 51 wNote)).history = (List.replicate 51 wNote).reverse.take 50
    ∧ (insertAllV1 (List.replicate 51 wNote)).history.length = 50
    ∧ 30 < (List.replicate 31 wNote).length
    ∧ (insertAllV2 (List.replicate 31 wNote)).history = (List.replicate 31 wNote).reverse.take 30
    ∧ (insertAllV2 (List.replicate 31 wNote)).history.length = 30 := by
  have h1 : 50 < (List.replicate 51 wNote).length := by simp
  have h2 : 30 < (List.replicate 31 wNote).length := by simp
  obtain ⟨a, b⟩ := C3_insert_capacity.1 (List.replicate 51 wNote) h1
  obtain ⟨c, d⟩ := C3_insert_capacity.2 (List.replicate 31 wNote) h2
  exact ⟨h1, a, b, h2, c, d⟩

/-- Claim C6: after every mutating store call (insert, remove, clear, in
both the v1 and the v2 store) the persisted value under the storage key
deserializes to exactly the in-memory sequence the call returned. -/
theorem C6_store_persistence_consistency :
    ∀ (st : StoreState) (r : SmartNotes) (i : String),
      persistedConsistent (addToHistory st r)
      ∧ persistedConsistent (deleteHistoryItem st i)
      ∧ persistedConsistent (clearAllHistory st true)
      ∧ persistedConsistent (saveToHistory st r)
      ∧ persistedConsistent (resetAllHistory st) := by
  intro st r i
  refine ⟨?_, ?_, ?_, ?_, ?_⟩
  · simp [addToHistory, persistedConsistent, decodeHistory_enc]
  · simp [deleteHistoryItem, persistedConsistent, decodeHistory_enc]
  · simp [clearAllHistory, persistedConsistent]
  · simp [saveToHistory, persistedConsistent, decodeHistory_enc]
  · simp [resetAllHistory, persistedConsistent]

/-- Claim C8: removing an id that matches no record leaves the sequence
unchanged. -/
theorem C8_remove_nonexistent :
    ∀ (st : StoreState) (i : String), (∀ r ∈ st.history, r.id ≠ i) →
      (deleteHistoryItem st i).history = st.history := by
  intro st i h
  simp only [deleteHistoryItem]
  exact List.filter_eq_self.mpr fun r hr => by simp [bne_iff_ne, h r hr]

/-- Witness for C8 at a concrete store and a missing id. -/
theorem C8_witness :
    (∀ r ∈ [wNote], r.id ≠ "b")
    ∧ (deleteHistoryItem ⟨[wNote], none⟩ "b").history = [wNote] := by
  have hyp : ∀ r ∈ [wNote], r.id ≠ "b" := by decide
  exact ⟨hyp, C8_remove_nonexistent ⟨[wNote], none⟩ "b" hyp⟩

/-- Claim C9: clearing twice yields the same empty store state (empty
sequence, persisted key removed) as clearing once, for the confirmed v1
clear and for the v2 Reset All. -/
theorem C9_clear_idempotent :
    ∀ st : StoreState,
      clearAllHistory (clearAllHistory st true) true = clearAllHistory st true
      ∧ clearAllHistory st true = ⟨[], none⟩
      ∧ resetAllHistory (resetAllHistory st) = resetAllHistory st
      ∧ resetAllHistory st = ⟨[], none⟩ := by
  intro st
  exact ⟨rfl, rfl, rfl, rfl⟩

/-! Analysis client and startup load. -/

/-- Claim C1 (amended): the analyze call fails with the fixed
human-readable AnalysisError message when the backend call errors or
times out, or when the returned body is not valid JSON; it does NOT
validate required fields after a successful parse. Whenever the call
fails, the app's processFile continuation leaves the history unchanged
(no record is appended), shows the message and enters the ERROR state. -/
theorem C1_amended_all_or_nothing :
    (∀ (msg uuid : String) (now : Nat),
      processLectureMedia (.failure msg) uuid now = .error analysisFailureMessage)
    ∧ (∀ (resp : GenResponse) (uuid : String) (now : Nat),
        jsonParse (resultText resp.text) = none →
        processLectureMedia (.success resp) uuid now = .error analysisFailureMessage)
    ∧ (∀ (h : List AnalyzedNotes) (e : String),
        (processFileModel h (.error e)).history = h
        ∧ (processFileModel h (.error e)).status = .ERROR
        ∧ (processFileModel h (.error e)).notes = none) := by
  refine ⟨fun msg uuid now => rfl, fun resp uuid now hp => ?_, fun h e => ⟨rfl, rfl, rfl⟩⟩
  simp [processLectureMedia, hp]

/-- Counterexample to C1 as stated: a backend body that is valid JSON but
misses every required field (the empty object) is returned as a success,
not an AnalysisError — the client performs no required-field validation. -/
theorem C1_counterexample :
    processLectureMedia (.success ⟨some "\x7b\x7d", []⟩) "id0" 0
      = .ok ⟨.obj [], "id0", 0, []⟩
    ∧ JsonVal.lookup (.obj []) "title" = none := ⟨rfl, rfl⟩

/-- Witness for C1 at a concrete backend failure and a concrete
non-JSON body. -/
theorem C1_witness :
    processLectureMedia (.failure "network error") "u" 0 = .error analysisFailureMessage
    ∧ jsonParse (resultText (some "[")) = none
    ∧ processLectureMedia (.success ⟨some "[", []⟩) "u" 0 = .error analysisFailureMessage
    ∧ (processFileModel [] (.error "network error")).history = []
    ∧ (processFileModel [] (.error "network error")).status = .ERROR := by
  refine ⟨C1_amended_all_or_nothing.1 "network error" "u" 0, rfl,
    C1_amended_all_or_nothing.2.1 ⟨some "[", []⟩ "u" 0 rfl,
    (C1_amended_all_or_nothing.2.2 [] "network error").1,
    (C1_amended_all_or_nothing.2.2 [] "network error").2.1⟩

/-- Claim C2 (amended): the client passes the backend's quiz through
without validation — on success the returned record's parsed body is
exactly the parse of the backend body, and its quiz is exactly the quiz
carried by that body; the answer-in-options property therefore holds
exactly when the backend's response already satisfies it. -/
theorem C2_amended_quiz_passthrough :
    ∀ (resp : GenResponse) (uuid : String) (now : Nat) (r : AnalyzedNotes),
      processLectureMedia (.success resp) uuid now = .ok r →
      jsonParse (resultText resp.text) = some r.parsed
      ∧ notesQuiz r = bodyQuizOf resp := by
  intro resp uuid now r h
  simp only [processLectureMedia] at h
  cases hp : jsonParse (resultText resp.text) with
  | none =>
    rw [hp] at h
    exact Except.noConfusion h
  | some j =>
    rw [hp] at h
    obtain rfl : (⟨j, uuid, now, mapSources resp.groundingChunks⟩ : AnalyzedNotes) = r :=
      Except.ok.inj h
    exact ⟨rfl, by simp [notesQuiz, bodyQuizOf, hp]⟩

/-- Counterexample to C2 as stated: a successful call whose returned
record has a quiz item whose answer is not a member of its options. -/
theorem C2_counterexample :
    processLectureMedia (.success ⟨some badQuizBody, []⟩) "id0" 5
      = .ok ⟨badQuizJson, "id0", 5, []⟩
    ∧ notesQuiz ⟨badQuizJson, "id0", 5, []⟩ = some [⟨"Q1", ["A", "B"], "C"⟩]
    ∧ "C" ∉ (["A", "B"] : List String) := ⟨rfl, rfl, by decide⟩

/-- Witness for C2 at a concrete successful call with a well-formed quiz. -/
theorem C2_witness :
    jsonParse (resultText (some goodQuizBody)) = some goodQuizJson
    ∧ notesQuiz ⟨goodQuizJson, "u", 1, []⟩ = bodyQuizOf ⟨some goodQuizBody, []⟩ := by
  exact C2_amended_quiz_passthrough ⟨some goodQuizBody, []⟩ "u" 1
    ⟨goodQuizJson, "u", 1, []⟩ rfl

/-- Claim C7: on every successful analyze call the returned record is the
parsed backend content assembled with the freshly generated id and the
current time, and with sources mapped from the out-of-band grounding
chunks into title/uri pairs, the title defaulting to the generic label
when absent; no grounding chunks yields an empty sources sequence. -/
theorem C7_assembled_record :
    ∀ (resp : GenResponse) (uuid : String) (now : Nat) (j : JsonVal),
      jsonParse (resultText resp.text) = some j →
      processLectureMedia (.success resp) uuid now
        = .ok ⟨j, uuid, now, mapSources resp.groundingChunks⟩
      ∧ (resp.groundingChunks = [] → mapSources resp.groundingChunks = [])
      ∧ (∀ c ∈ resp.groundingChunks, ∀ w : WebInfo, c.web = some w →
          (⟨w.title.getD "External Resource", w.uri⟩ : GroundingSource)
            ∈ mapSources resp.groundingChunks) := by
  intro resp uuid now j hp
  refine ⟨by simp [processLectureMedia, hp], ?_, ?_⟩
  · intro h; rw [h]; rfl
  · intro c hc w hw
    unfold mapSources
    exact List.mem_filterMap.mpr ⟨c, hc, by simp [hw]⟩

/-- Witness for C7 at the spec's mock scenario: a parsed body and no
grounding chunks, so sources is empty. -/
theorem C7_witness :
    processLectureMedia (.success ⟨some "\x7b\x7d", []⟩) "u1" 7
      = .ok ⟨.obj [], "u1", 7, mapSources []⟩
    ∧ mapSources ([] : List GroundingChunk) = [] := by
  have h := C7_assembled_record ⟨some "\x7b\x7d", []⟩ "u1" 7 (.obj []) rfl
  exact ⟨h.1, h.2.1 rfl⟩

/-- Counterexample to C4 as stated: the v2 load on a corrupt (unparseable)
payload raises an uncaught exception instead of returning the empty
sequence. -/
theorem C4_counterexample :
    loadHistoryV2 (some "corrupt") = .error "SyntaxError: unexpected end of JSON input"
    ∧ loadHistoryV2 (some "corrupt") ≠ .ok (.arr []) :=
  ⟨rfl, fun h => Except.noConfusion h⟩

/-- Claim C4 (amended): both loads return the empty sequence when the
payload is absent; the v1 load additionally swallows a corrupt payload
(logged only) and leaves the history empty, but the v2 load parses with
no error handling, so a corrupt payload propagates as an uncaught parse
exception. -/
theorem C4_amended_load_behavior :
    loadHistoryV1 none = .arr []
    ∧ (∀ s : String, jsonParse s = none → loadHistoryV1 (some s) = .arr [])
    ∧ loadHistoryV2 none = .ok (.arr [])
    ∧ (∀ s : String, s.isEmpty = false → jsonParse s = none →
        loadHistoryV2 (some s) = .error "SyntaxError: unexpected end of JSON input") := by
  refine ⟨rfl, ?_, rfl, ?_⟩
  · intro s hp
    cases he : s.isEmpty with
    | true => simp [loadHistoryV1, he]
    | false => simp [loadHistoryV1, he, hp]
  · intro s he hp
    simp [loadHistoryV2, he, hp]

/-- Witness for C4 at a concrete truncated payload. -/
theorem C4_witness :
    jsonParse "\x7b" = none
    ∧ loadHistoryV1 (some "\x7b") = .arr []
    ∧ ("\x7b").isEmpty = false
    ∧ loadHistoryV2 (some "\x7b") = .error "SyntaxError: unexpected end of JSON input" := by
  have hp : jsonParse "\x7b" = none := rfl
  have he : ("\x7b").isEmpty = false := rfl
  exact ⟨hp, C4_amended_load_behavior.2.1 "\x7b" hp, he,
    C4_amended_load_behavior.2.2.2 "\x7b" he hp⟩

/-! PDF layout lemmas. -/

/-- stepOk is reflexive. -/
theorem stepOk_refl (st : PdfState) : stepOk st st :=
  ⟨le_refl _, fun h => h, [], by simp⟩

/-- stepOk composes. -/
theorem stepOk_trans {a b c : PdfState} (h1 : stepOk a b) (h2 : stepOk b c) : stepOk a c := by
  obtain ⟨p1, b1, e1, he1⟩ := h1
  obtain ⟨p2, b2, e2, he2⟩ := h2
  exact ⟨le_trans p1 p2, fun h => b2 (b1 h), e1 ++ e2, by rw [he2, he1, List.append_assoc]⟩

/-- stepOk holds when the page does not decrease, the items are only
appended, and every appended item sits within the new page bound. -/
theorem stepOk_of_append (st st' : PdfState) (hpage : st.page ≤ st'.page)
    (ex : List PdfItem) (hitems : st'.items = st.items ++ ex)
    (hex : ∀ it ∈ ex, it.page ≤ st'.page) : stepOk st st' := by
  refine ⟨hpage, ?_, ex, hitems⟩
  intro hb it hit
  rw [hitems] at hit
  rcases List.mem_append.mp hit with h | h
  · exact le_trans (hb it h) hpage
  · exact hex it h

/-- Placing one string is a stepOk step. -/
theorem stepOk_drawText (st : PdfState) (s : String) : stepOk st (drawText st s) := by
  refine stepOk_of_append st _ (le_refl _) _ rfl ?_
  intro it hit
  rw [List.mem_singleton] at hit
  subst hit
  exact le_refl _

/-- Placing a block of lines is a stepOk step. -/
theorem stepOk_drawLines (st : PdfState) (lines : List String) (lh : Nat) :
    stepOk st (drawLines st lines lh) := by
  refine stepOk_of_append st _ (le_refl _) _ rfl ?_
  intro it hit
  obtain ⟨p, hp, rfl⟩ := List.mem_map.mp hit
  exact le_refl _

/-- Advancing the cursor is a stepOk step. -/
theorem stepOk_advance (st : PdfState) (dy : Nat) : stepOk st (advance st dy) := by
  refine stepOk_of_append st _ (le_refl _) [] (by simp [advance]) ?_
  intro it hit
  exact absurd hit (List.not_mem_nil it)

/-- checkPage is a stepOk step. -/
theorem stepOk_checkPage (st : PdfState) (h : Nat) : stepOk st (checkPage st h) := by
  unfold checkPage
  split
  · exact stepOk_of_append st _ (Nat.le_succ _) [] (by simp)
      (fun it hit => absurd hit (List.not_mem_nil it))
  · exact stepOk_refl st

/-- addPage is a stepOk step. -/
theorem stepOk_addPage (st : PdfState) : stepOk st (addPageOp st) :=
  stepOk_of_append st _ (Nat.le_succ _) [] (by simp [addPageOp])
    (fun it hit => absurd hit (List.not_mem_nil it))

/-- Folding stepOk steps is a stepOk step. -/
theorem stepOk_foldl {β : Type} (step : PdfState → β → PdfState)
    (hstep : ∀ st b, stepOk st (step st b)) :
    ∀ (l : List β) (st : PdfState), stepOk st (l.foldl step st) := by
  intro l
  induction l with
  | nil => intro st; exact stepOk_refl st
  | cons x xs ih => intro st; exact stepOk_trans (hstep st x) (ih (step st x))

/-- The title/metadata header is a stepOk run from the fresh document. -/
theorem stepOk_headerSection (n : SmartNotes) : stepOk pdfInit (headerSection n) := by
  show stepOk pdfInit
    (advance (drawText (advance (drawText pdfInit (titleText n)) 15) (metaText n)) 15)
  exact stepOk_trans (stepOk_drawText _ _) (stepOk_trans (stepOk_advance _ _)
    (stepOk_trans (stepOk_drawText _ _) (stepOk_advance _ _)))

/-- The summary section is a stepOk step. -/
theorem stepOk_summarySection (n : SmartNotes) (split : String → List String) (st : PdfState) :
    stepOk st (summarySection n split st) := by
  show stepOk st
    (advance (drawLines (advance (drawText st "Executive Summary") 7) (split n.summary) 6)
      ((split n.summary).length * 6 + 10))
  exact stepOk_trans (stepOk_drawText _ _) (stepOk_trans (stepOk_advance _ _)
    (stepOk_trans (stepOk_drawLines _ _ _) (stepOk_advance _ _)))

/-- One key-concept placement is a stepOk step. -/
theorem stepOk_conceptStep (split : String → List String) (st : PdfState) (c : String) :
    stepOk st (conceptStep split st c) := by
  show stepOk st
    (advance (drawLines (checkPage st ((split ("• " ++ c)).length * 6)) (split ("• " ++ c)) 6)
      ((split ("• " ++ c)).length * 6))
  exact stepOk_trans (stepOk_checkPage _ _)
    (stepOk_trans (stepOk_drawLines _ _ _) (stepOk_advance _ _))

/-- The key-concepts section is a stepOk step. -/
theorem stepOk_conceptsSection (n : SmartNotes) (split : String → List String) (st : PdfState) :
    stepOk st (conceptsSection n split st) := by
  unfold conceptsSection
  split
  · exact stepOk_trans (stepOk_checkPage _ _) (stepOk_trans (stepOk_drawText _ _)
      (stepOk_trans (stepOk_advance _ _)
        (stepOk_trans (stepOk_foldl _ (fun s c => stepOk_conceptStep split s c) _ _)
          (stepOk_advance _ _))))
  · exact stepOk_refl st

/-- One grounding-source placement is a stepOk step. -/
theorem stepOk_sourceStep (split : String → List String) (st : PdfState)
    (src : GroundingSource) : stepOk st (sourceStep split st src) := by
  show stepOk st
    (advance
      (drawLines (checkPage st ((split (src.title ++ ": " ++ src.uri)).length * 6))
        (split (src.title ++ ": " ++ src.uri)) 6)
      ((split (src.title ++ ": " ++ src.uri)).length * 6))
  exact stepOk_trans (stepOk_checkPage _ _)
    (stepOk_trans (stepOk_drawLines _ _ _) (stepOk_advance _ _))

/-- The sources section is a stepOk step. -/
theorem stepOk_sourcesSection (n : SmartNotes) (split : String → List String) (st : PdfState) :
    stepOk st (sourcesSection n split st) := by
  unfold sourcesSection
  split
  · split
    · exact stepOk_trans (stepOk_checkPage _ _) (stepOk_trans (stepOk_drawText _ _)
        (stepOk_trans (stepOk_advance _ _)
          (stepOk_trans (stepOk_foldl _ (fun s src => stepOk_sourceStep split s src) _ _)
            (stepOk_advance _ _))))
    · exact stepOk_refl st
  · exact stepOk_refl st

/-- Everything before the transcription is a stepOk run from the fresh
document. -/
theorem stepOk_preTranscription (n : SmartNotes) (split : String → List String) :
    stepOk pdfInit (preTranscription n split) :=
  stepOk_trans (stepOk_headerSection n)
    (stepOk_trans (stepOk_summarySection n split _)
      (stepOk_trans (stepOk_conceptsSection n split _) (stepOk_sourcesSection n split _)))

/-- The later sections only extend the header-plus-summary state. -/
theorem stepOk_summaryStage_to_pre (n : SmartNotes) (split : String → List String) :
    stepOk (summarySection n split (headerSection n)) (preTranscription n split) :=
  stepOk_trans (stepOk_conceptsSection n split _) (stepOk_sourcesSection n split _)

/-- The document state after title, metadata and summary, computed: the
summary block is placed in one unchecked run at vertical positions
57, 63, 69, ..., regardless of how many lines it has. -/
theorem summaryStage_eq (n : SmartNotes) (split : String → List String) :
    summarySection n split (headerSection n)
      = ⟨1, 57 + ((split n.summary).length * 6 + 10),
         ⟨1, 20, titleText n⟩ :: ⟨1, 35, metaText n⟩ :: ⟨1, 50, "Executive Summary"⟩
           :: (split n.summary).enum.map fun p => ⟨1, 57 + 6 * p.1, p.2⟩⟩ := rfl

/-- checkPage never touches the items. -/
theorem checkPage_items (st : PdfState) (h : Nat) : (checkPage st h).items = st.items := by
  unfold checkPage
  split <;> rfl

/-- checkPage never decreases the page. -/
theorem checkPage_page_le (st : PdfState) (h : Nat) : st.page ≤ (checkPage st h).page := by
  unfold checkPage
  split
  · exact Nat.le_succ _
  · exact le_refl _

/-- After checkPage 5 the cursor is placed at most at 275, so a
5-millimeter line starting there stays above the 280 limit. -/
theorem checkPage_y_le (st : PdfState) : (checkPage st 5).y ≤ 275 := by
  unfold checkPage pageLimit
  split
  · show (20 : Nat) ≤ 275
    decide
  · omega

/-- One transcription line appends exactly one item, placed at the
post-checkPage cursor. -/
theorem transLineStep_items (st : PdfState) (l : String) :
    (transLineStep st l).items
      = st.items ++ [⟨(checkPage st 5).page, (checkPage st 5).y, l⟩] := by
  show (checkPage st 5).items ++ [⟨(checkPage st 5).page, (checkPage st 5).y, l⟩]
    = st.items ++ [⟨(checkPage st 5).page, (checkPage st 5).y, l⟩]
  rw [checkPage_items]

/-- One transcription line never decreases the page. -/
theorem transLineStep_page (st : PdfState) (l : String) :
    st.page ≤ (transLineStep st l).page := by
  show st.page ≤ (checkPage st 5).page
  exact checkPage_page_le st 5

/-- The transcription loop appends exactly its input lines, one item per
line, each within the page limit and on a page at or after the starting
one, and never decreases the page. -/
theorem transLoop_spec :
    ∀ (lines : List String) (st : PdfState),
      ∃ extra : List PdfItem,
        (lines.foldl transLineStep st).items = st.items ++ extra
        ∧ extra.map PdfItem.text = lines
        ∧ (∀ it ∈ extra, it.y ≤ 275 ∧ st.page ≤ it.page)
        ∧ st.page ≤ (lines.foldl transLineStep st).page := by
  intro lines
  induction lines with
  | nil =>
    intro st
    exact ⟨[], by simp, rfl, by simp, le_refl _⟩
  | cons l ls ih =>
    intro st
    obtain ⟨extra, h1, h2, h3, h4⟩ := ih (transLineStep st l)
    refine ⟨⟨(checkPage st 5).page, (checkPage st 5).y, l⟩ :: extra, ?_, ?_, ?_, ?_⟩
    · rw [List.foldl_cons, h1, transLineStep_items, List.append_assoc]
      rfl
    · simp [h2]
    · intro it hit
      rcases List.mem_cons.mp hit with rfl | hit
      · exact ⟨checkPage_y_le st, checkPage_page_le st 5⟩
      · obtain ⟨hy, hp⟩ := h3 it hit
        exact ⟨hy, le_trans (transLineStep_page st l) hp⟩
    · rw [List.foldl_cons]
      exact le_trans (transLineStep_page st l) h4

/-- One transcription line is a stepOk step. -/
theorem stepOk_transLineStep (st : PdfState) (l : String) : stepOk st (transLineStep st l) := by
  show stepOk st (advance (drawText (checkPage st 5) l) 5)
  exact stepOk_trans (stepOk_checkPage _ _)
    (stepOk_trans (stepOk_drawText _ _) (stepOk_advance _ _))

/-- Claim C5 (amended): the export places the sections in the fixed source
order — title, metadata, summary first (the summary block laid out with no
page check), then the page-checked concepts and sources blocks, then the
transcription, which always starts at the top of a fresh page; every
transcription line is rendered, each placed within the 280 page limit with
a page break whenever a line would not fit, and the artifact always has at
least two pages. The summary block itself, however, is not page-checked,
so a summary taller than the remaining first-page space runs past the
page bottom (see the counterexample). -/
theorem C5_amended_pagination :
    ∀ (notes : SmartNotes) (split : String → List String),
      ∃ extra : List PdfItem,
        (generatePDF notes split).items
          = (preTranscription notes split).items
            ++ ⟨(preTranscription notes split).page + 1, 20, "Transcription"⟩ :: extra
        ∧ extra.map PdfItem.text = split notes.transcription
        ∧ (∀ it ∈ extra, it.y ≤ 275 ∧ (preTranscription notes split).page + 1 ≤ it.page)
        ∧ (∀ it ∈ (preTranscription notes split).items,
            it.page ≤ (preTranscription notes split).page)
        ∧ (∃ rest : List PdfItem,
            (preTranscription notes split).items
              = ⟨1, 20, titleText notes⟩ :: ⟨1, 35, metaText notes⟩
                :: ⟨1, 50, "Executive Summary"⟩
                :: (((split notes.summary).enum.map fun p => ⟨1, 57 + 6 * p.1, p.2⟩) ++ rest))
        ∧ 2 ≤ (generatePDF notes split).page := by
  intro notes split
  obtain ⟨extra, h1, h2, h3, h4⟩ :=
    transLoop_spec (split notes.transcription)
      (advance (drawText (addPageOp (preTranscription notes split)) "Transcription") 10)
  have hitems :
      (advance (drawText (addPageOp (preTranscription notes split)) "Transcription") 10).items
        = (preTranscription notes split).items
          ++ [⟨(preTranscription notes split).page + 1, 20, "Transcription"⟩] := rfl
  refine ⟨extra, ?_, h2, h3, ?_, ?_, ?_⟩
  · show ((split notes.transcription).foldl transLineStep
      (advance (drawText (addPageOp (preTranscription notes split)) "Transcription") 10)).items
      = _
    rw [h1, hitems, List.append_assoc]
    rfl
  · exact (stepOk_preTranscription notes split).2.1
      (fun it hit => absurd hit (List.not_mem_nil it))
  · obtain ⟨rest, hrest⟩ := (stepOk_summaryStage_to_pre notes split).2.2
    rw [summaryStage_eq] at hrest
    exact ⟨rest, by rw [hrest]; simp⟩
  · have h5 : 1 ≤ (preTranscription notes split).page :=
      (stepOk_preTranscription notes split).1
    have h6 : (preTranscription notes split).page + 1
        ≤ ((split notes.transcription).foldl transLineStep
            (advance (drawText (addPageOp (preTranscription notes split)) "Transcription")
              10)).page := h4
    show 2 ≤ ((split notes.transcription).foldl transLineStep
      (advance (drawText (addPageOp (preTranscription notes split)) "Transcription") 10)).page
    omega

set_option maxRecDepth 16000 in
/-- Counterexample to C5 as stated: with a summary splitting into 60
rendered lines, the last summary line is placed on page 1 at vertical
position 411, past the 280 page-break limit (and past the 297mm physical
page), with no page break — content is silently dropped. -/
theorem C5_counterexample :
    (⟨1, 411, "x"⟩ : PdfItem) ∈ (generatePDF exNote exSplit).items
    ∧ pageLimit < 411 := by
  refine ⟨?_, by decide⟩
  decide

/-- Claim C10: the export unconditionally starts a new page before the
transcription section, so the produced artifact always contains at least
two pages, even when all the record's content would fit on one page. -/
theorem C10_always_two_pages :
    ∀ (notes : SmartNotes) (split : String → List String),
      2 ≤ (generatePDF notes split).page := by
  intro notes split
  have h5 : 1 ≤ (preTranscription notes split).page :=
    (stepOk_preTranscription notes split).1
  have h4 : (preTranscription notes split).page + 1
      ≤ ((split notes.transcription).foldl transLineStep
          (advance (drawText (addPageOp (preTranscription notes split)) "Transcription")
            10)).page :=
    (stepOk_foldl transLineStep (fun s l => stepOk_transLineStep s l)
      (split notes.transcription)
      (advance (drawText (addPageOp (preTranscription notes split)) "Transcription") 10)).1
  show 2 ≤ ((split notes.transcription).foldl transLineStep
    (advance (drawText (addPageOp (preTranscription notes split)) "Transcription") 10)).page
  omega
